import Mathlib

/-
Verification of the Monte-Carlo retirement simulator.

The repository holds two near-identical simulators:
  * src/monte_carlo.py : class MonteCarloRetirementSimulator.run_simulation
    (embedded below in namespace MC), and
  * src/app.py : class MonteCarloRetirementSimulator.run_simulation
    (embedded below in namespace App).

Embedding conventions.
  * Machine floats are modelled by exact arithmetic: the parameter fields and
    all balances live in the real numbers, and the statistics helpers
    (transcriptions of the numpy calls shared by both files) are stated over an
    arbitrary linear ordered field so that concrete witnesses can be evaluated
    over the rationals.
  * Randomness is made explicit: a run takes a family
    z : month index -> simulation column -> standard normal variate, and the
    call np.random.normal(loc, scale, n) is embedded as the family of draws
    fun j => loc + scale * z month j, which is exactly how a normal sample with
    mean loc and standard deviation scale is produced from standard normal
    variates.
  * years and n_simulations are natural numbers (the web layer converts them
    with int(...)).
  * Neither source file validates its parameters.  Two operations on the
    numeric path can raise for a parameter set with natural years and
    n_simulations: np.random.normal raises ValueError whenever its scale
    argument monthly_volatility is negative (annual_volatility < 0), which
    fires at the first loop iteration, so only when the loop runs at all
    (years >= 1, for any n_simulations including 0); and np.percentile raises
    IndexError on the empty final-value sample (n_simulations = 0), after the
    trajectory matrix has already been built.  run_simulation is therefore
    embedded as a function into Except SimError with exactly those two error
    cases, errored in program order: the loop draw comes before the
    statistics.
-/

/-- Input record of run_simulation: the keyword parameters of
MonteCarloRetirementSimulator.run_simulation in both source files.
Percentage-form fields (annual_return, annual_volatility, inflation_rate) are
stored exactly as passed by the caller. -/
structure SimParams where
  current_savings : ℝ
  monthly_contribution : ℝ
  years : ℕ
  annual_return : ℝ
  annual_volatility : ℝ
  inflation_rate : ℝ
  goal_amount : ℝ
  n_simulations : ℕ

namespace Np

variable {K : Type} [LinearOrderedField K]

/-- np.mean of a 1-d array, transcribed as sum over length. -/
def mean (l : List K) : K := l.sum / (l.length : K)

/-- np.min of a 1-d array (both files call it on the non-empty final row). -/
def amin (l : List K) : K :=
  match l with
  | [] => 0
  | x :: xs => xs.foldl min x

/-- np.max of a 1-d array. -/
def amax (l : List K) : K :=
  match l with
  | [] => 0
  | x :: xs => xs.foldl max x

/-- The linear-interpolation kernel of np.percentile: given the ascending
sorted sample s and the fractional position h = q/100 * (n-1), return
s[i] + (h - i) * (s[i+1] - s[i]) with i = floor h. -/
def interp (s : List K) (h : ℚ) : K :=
  s.getD (⌊h⌋.toNat) 0 +
    ((h - (⌊h⌋ : ℚ) : ℚ) : K) * (s.getD (⌊h⌋.toNat + 1) 0 - s.getD (⌊h⌋.toNat) 0)

/-- np.percentile(l, q) with the default linear interpolation between order
statistics: sort ascending and interpolate at position q/100 * (n-1). -/
def percentile (q : ℚ) (l : List K) : K :=
  interp (l.insertionSort (· ≤ ·)) (((l.length : ℚ) - 1) * q / 100)

/-- np.std (population standard deviation, no Bessel correction):
sqrt of the mean squared deviation from the mean. -/
noncomputable def std (l : List ℝ) : ℝ :=
  Real.sqrt (mean (l.map fun x => (x - mean l) ^ 2))

end Np

namespace Agg

variable {K : Type} [LinearOrderedField K]

/-- Lines 93-94 of src/monte_carlo.py (lines 60-61 of src/app.py):
success_count = np.sum(final_values >= future_goal) and
success_probability = (success_count / n_simulations) * 100, where the
final-value sample has exactly n_simulations entries. -/
def success_probability (goal : K) (finals : List K) : K :=
  ((finals.countP fun b => decide (goal ≤ b)) : K) / (finals.length : K) * 100

/-- Line 106-107 of src/monte_carlo.py:
shortfall_amount = future_goal - final_values[final_values < future_goal];
avg_shortfall = np.mean(shortfall_amount) if len(shortfall_amount) > 0 else 0. -/
def avg_shortfall (goal : K) (finals : List K) : K :=
  let shortfall_amount := (finals.filter fun b => decide (b < goal)).map fun b => goal - b
  if 0 < shortfall_amount.length then Np.mean shortfall_amount else 0

/-- Line 120 of src/monte_carlo.py: 'shortfall_probability': 100 - success_probability. -/
def shortfall_probability (goal : K) (finals : List K) : K :=
  100 - success_probability goal finals

end Agg

noncomputable section

namespace MC

/-- Line 55 of src/monte_carlo.py: annual_return = annual_return / 100. -/
def annual_return (p : SimParams) : ℝ := p.annual_return / 100

/-- Line 56: annual_volatility = annual_volatility / 100. -/
def annual_volatility (p : SimParams) : ℝ := p.annual_volatility / 100

/-- Line 57: inflation_rate = inflation_rate / 100. -/
def inflation_rate (p : SimParams) : ℝ := p.inflation_rate / 100

/-- Line 60: future_goal = goal_amount * (1 + inflation_rate) ** years. -/
def future_goal (p : SimParams) : ℝ :=
  p.goal_amount * (1 + inflation_rate p) ^ p.years

/-- Line 63: months = years * 12. -/
def months (p : SimParams) : ℕ := p.years * 12

/-- Line 64: monthly_return = (1 + annual_return) ** (1/12) - 1
(real exponentiation; the base is positive on the intended parameter range). -/
def monthly_return (p : SimParams) : ℝ :=
  (1 + annual_return p) ^ ((1 : ℝ) / 12) - 1

/-- Line 65: monthly_volatility = annual_volatility / np.sqrt(12). -/
def monthly_volatility (p : SimParams) : ℝ :=
  annual_volatility p / Real.sqrt 12

/-- Lines 76-80: the j-th entry of
np.random.normal(monthly_return, monthly_volatility, n_simulations) drawn for
a given month, expressed from the standard normal variate z month j. -/
def sample (p : SimParams) (z : ℕ → ℕ → ℝ) (month j : ℕ) : ℝ :=
  monthly_return p + monthly_volatility p * z month j

/-- Lines 69-83: balance of simulation column j at the end of month m.
Row 0 is current_savings; each later month multiplies by (1 + draw) and then
adds monthly_contribution, except that line 82 skips the contribution whenever
month % 12 == 0. -/
def balance (p : SimParams) (z : ℕ → ℕ → ℝ) : ℕ → ℕ → ℝ
  | 0, _ => p.current_savings
  | month + 1, j =>
    let grown := balance p z month j * (1 + sample p z (month + 1) j)
    if (month + 1) % 12 ≠ 0 then grown + p.monthly_contribution else grown

/-- Lines 68-83: the results array, as the list of its months+1 rows, each row
holding the n_simulations simulation columns for that month. -/
def results (p : SimParams) (z : ℕ → ℕ → ℝ) : List (List ℝ) :=
  (List.range (months p + 1)).map fun m =>
    (List.range p.n_simulations).map fun j => balance p z m j

/-- Line 90: final_values = results[-1], the last row of the results array. -/
def final_values (p : SimParams) (z : ℕ → ℕ → ℝ) : List ℝ :=
  (List.range p.n_simulations).map fun j => balance p z (months p) j

/-- The summary dict built at lines 110-121 of src/monte_carlo.py. -/
structure Summary where
  success_probability : ℝ
  future_goal : ℝ
  median_final_value : ℝ
  mean_final_value : ℝ
  std_final_value : ℝ
  p5 : ℝ
  p25 : ℝ
  p50 : ℝ
  p75 : ℝ
  p95 : ℝ
  avg_shortfall : ℝ
  min_value : ℝ
  max_value : ℝ
  shortfall_probability : ℝ

/-- Lines 90-121: the statistics computed from the final row. -/
def summaryOf (p : SimParams) (z : ℕ → ℕ → ℝ) : Summary :=
  let finals := final_values p z
  let fg := future_goal p
  { success_probability := Agg.success_probability fg finals
    future_goal := fg
    median_final_value := Np.percentile 50 finals
    mean_final_value := Np.mean finals
    std_final_value := Np.std finals
    p5 := Np.percentile 5 finals
    p25 := Np.percentile 25 finals
    p50 := Np.percentile 50 finals
    p75 := Np.percentile 75 finals
    p95 := Np.percentile 95 finals
    avg_shortfall := Agg.avg_shortfall fg finals
    min_value := Np.amin finals
    max_value := Np.amax finals
    shortfall_probability := Agg.shortfall_probability fg finals }

end MC

namespace MC

end MC

namespace App

/-- Lines 34-36 of src/app.py: the percentage conversions. -/
def annual_return (p : SimParams) : ℝ := p.annual_return / 100

/-- Line 35: annual_volatility /= 100.0. -/
def annual_volatility (p : SimParams) : ℝ := p.annual_volatility / 100

/-- Line 36: inflation_rate /= 100.0. -/
def inflation_rate (p : SimParams) : ℝ := p.inflation_rate / 100

/-- Line 39: future_goal = goal_amount * ((1 + inflation_rate) ** years). -/
def future_goal (p : SimParams) : ℝ :=
  p.goal_amount * (1 + inflation_rate p) ^ p.years

/-- Line 42: months = years * 12. -/
def months (p : SimParams) : ℕ := p.years * 12

/-- Line 43: monthly_return = (1 + annual_return) ** (1/12.0) - 1. -/
def monthly_return (p : SimParams) : ℝ :=
  (1 + annual_return p) ^ ((1 : ℝ) / 12) - 1

/-- Line 44: monthly_volatility = annual_volatility / np.sqrt(12). -/
def monthly_volatility (p : SimParams) : ℝ :=
  annual_volatility p / Real.sqrt 12

/-- Line 52: the j-th draw of np.random.normal(monthly_return,
monthly_volatility, n_simulations), from the standard normal variate z month j. -/
def sample (p : SimParams) (z : ℕ → ℕ → ℝ) (month j : ℕ) : ℝ :=
  monthly_return p + monthly_volatility p * z month j

/-- Lines 47-54: balance of column j at the end of month m. Unlike
src/monte_carlo.py, line 54 adds monthly_contribution after every month,
unconditionally. -/
def balance (p : SimParams) (z : ℕ → ℕ → ℝ) : ℕ → ℕ → ℝ
  | 0, _ => p.current_savings
  | month + 1, j =>
    balance p z month j * (1 + sample p z (month + 1) j) + p.monthly_contribution

/-- Lines 47-54: the results array as the list of its months+1 rows. -/
def results (p : SimParams) (z : ℕ → ℕ → ℝ) : List (List ℝ) :=
  (List.range (months p + 1)).map fun m =>
    (List.range p.n_simulations).map fun j => balance p z m j

/-- Line 59: final_values = results[-1]. -/
def final_values (p : SimParams) (z : ℕ → ℕ → ℝ) : List ℝ :=
  (List.range p.n_simulations).map fun j => balance p z (months p) j

/-- The summary dict built at lines 73-83 of src/app.py (no shortfall fields). -/
structure Summary where
  success_probability : ℝ
  future_goal : ℝ
  median_final_value : ℝ
  mean_final_value : ℝ
  std_final_value : ℝ
  min_value : ℝ
  max_value : ℝ
  p5 : ℝ
  p25 : ℝ
  p50 : ℝ
  p75 : ℝ
  p95 : ℝ
  n_simulations : ℕ

/-- Lines 59-83: the statistics computed from the final row. -/
def summaryOf (p : SimParams) (z : ℕ → ℕ → ℝ) : Summary :=
  let finals := final_values p z
  let fg := future_goal p
  { success_probability := Agg.success_probability fg finals
    future_goal := fg
    median_final_value := Np.percentile 50 finals
    mean_final_value := Np.mean finals
    std_final_value := Np.std finals
    min_value := Np.amin finals
    max_value := Np.amax finals
    p5 := Np.percentile 5 finals
    p25 := Np.percentile 25 finals
    p50 := Np.percentile 50 finals
    p75 := Np.percentile 75 finals
    p95 := Np.percentile 95 finals
    n_simulations := p.n_simulations }

end App

/-- The all-zero family of standard normal variates (a possible draw). -/
def zZero : ℕ → ℕ → ℝ := fun _ _ => 0

/-- Concrete parameter set exhibiting the contribution-timing disagreement:
positive monthly contribution, one year horizon, zero return and volatility so
that every monthly draw is exactly zero. -/
def divergenceParams : SimParams :=
  { current_savings := 0
    monthly_contribution := 1
    years := 1
    annual_return := 0
    annual_volatility := 0
    inflation_rate := 0
    goal_amount := 0
    n_simulations := 1 }

/-- Concrete parameter set with annual_return = 1200 (percent), on which the
geometric de-annualization differs from the naive division by 1200. -/
def geometricParams : SimParams :=
  { current_savings := 0
    monthly_contribution := 0
    years := 1
    annual_return := 1200
    annual_volatility := 0
    inflation_rate := 0
    goal_amount := 0
    n_simulations := 1 }

/-- Concrete parameter set with zero volatility, for the deterministic-run
witness. -/
def zeroVolParams : SimParams :=
  { current_savings := 1
    monthly_contribution := 0
    years := 1
    annual_return := 0
    annual_volatility := 0
    inflation_rate := 0
    goal_amount := 0
    n_simulations := 2 }

/-- Concrete parameter set with zero goal and zero inflation, for the
future-goal witness. -/
def zeroGoalParams : SimParams :=
  { current_savings := 0
    monthly_contribution := 0
    years := 1
    annual_return := 0
    annual_volatility := 0
    inflation_rate := 0
    goal_amount := 0
    n_simulations := 1 }

/-- Concrete parameter set with one simulation, for the totality witness. -/
def oneSimParams : SimParams :=
  { current_savings := 0
    monthly_contribution := 0
    years := 1
    annual_return := 0
    annual_volatility := 0
    inflation_rate := 0
    goal_amount := 0
    n_simulations := 1 }

end

section ConstantListLemmas

variable {K : Type} [LinearOrderedField K]

lemma mean_const {l : List K} {c : K} (h1 : 1 ≤ l.length) (h : ∀ x ∈ l, x = c) :
    Np.mean l = c := by
  have hsum := List.sum_eq_card_nsmul l c h
  have hn : ((l.length : K)) ≠ 0 := Nat.cast_ne_zero.mpr (by omega)
  rw [Np.mean, hsum, nsmul_eq_mul]
  exact mul_div_cancel_left₀ c hn

lemma foldl_min_const (c : K) : ∀ xs : List K, (∀ x ∈ xs, x = c) → xs.foldl min c = c := by
  intro xs
  induction xs with
  | nil => intro _; rfl
  | cons x xs ih =>
    intro h
    have hx : x = c := h x (by simp)
    have hrest : ∀ y ∈ xs, y = c := fun y hy => h y (by simp [hy])
    rw [List.foldl_cons, hx, min_self]
    exact ih hrest

lemma foldl_max_const (c : K) : ∀ xs : List K, (∀ x ∈ xs, x = c) → xs.foldl max c = c := by
  intro xs
  induction xs with
  | nil => intro _; rfl
  | cons x xs ih =>
    intro h
    have hx : x = c := h x (by simp)
    have hrest : ∀ y ∈ xs, y = c := fun y hy => h y (by simp [hy])
    rw [List.foldl_cons, hx, max_self]
    exact ih hrest

lemma amin_const {l : List K} {c : K} (h1 : 1 ≤ l.length) (h : ∀ x ∈ l, x = c) :
    Np.amin l = c := by
  cases l with
  | nil => simp at h1
  | cons x xs =>
    have hx : x = c := h x (by simp)
    have hrest : ∀ y ∈ xs, y = c := fun y hy => h y (by simp [hy])
    rw [Np.amin, hx]
    exact foldl_min_const c xs hrest

lemma amax_const {l : List K} {c : K} (h1 : 1 ≤ l.length) (h : ∀ x ∈ l, x = c) :
    Np.amax l = c := by
  cases l with
  | nil => simp at h1
  | cons x xs =>
    have hx : x = c := h x (by simp)
    have hrest : ∀ y ∈ xs, y = c := fun y hy => h y (by simp [hy])
    rw [Np.amax, hx]
    exact foldl_max_const c xs hrest

lemma sum_map_sub_const (c : K) (l : List K) :
    (l.map fun b => c - b).sum = (l.length : K) * c - l.sum := by
  induction l with
  | nil => simp
  | cons x xs ih =>
    simp only [List.map_cons, List.sum_cons, ih, List.length_cons]
    push_cast
    ring

lemma std_const {l : List ℝ} {c : ℝ} (h1 : 1 ≤ l.length) (h : ∀ x ∈ l, x = c) :
    Np.std l = 0 := by
  have hmean : Np.mean l = c := mean_const h1 h
  have hzero : ∀ y ∈ l.map fun x => (x - Np.mean l) ^ 2, y = 0 := by
    intro y hy
    simp only [List.mem_map] at hy
    obtain ⟨x, hx, rfl⟩ := hy
    rw [h x hx, hmean]
    ring
  have hlen2 : 1 ≤ (l.map fun x => (x - Np.mean l) ^ 2).length := by
    simpa using h1
  rw [Np.std, mean_const hlen2 hzero, Real.sqrt_zero]

end ConstantListLemmas

section PercentileLemmas

variable {K : Type} [LinearOrderedField K]

lemma floor_toNat_cast {h : ℚ} (h0 : 0 ≤ h) : ((⌊h⌋.toNat : ℚ)) = ((⌊h⌋ : ℤ) : ℚ) := by
  have h1 : ((⌊h⌋.toNat : ℤ)) = ⌊h⌋ := Int.toNat_of_nonneg (Int.floor_nonneg.mpr h0)
  exact_mod_cast congrArg (fun t : ℤ => (t : ℚ)) h1

lemma floor_toNat_le {h : ℚ} (h0 : 0 ≤ h) : ((⌊h⌋.toNat : ℚ)) ≤ h := by
  rw [floor_toNat_cast h0]
  exact Int.floor_le h

lemma lt_floor_toNat_add_one {h : ℚ} (h0 : 0 ≤ h) : h < ((⌊h⌋.toNat : ℚ)) + 1 := by
  rw [floor_toNat_cast h0]
  exact Int.lt_floor_add_one h

lemma fract_nonneg_q (h : ℚ) : 0 ≤ h - ((⌊h⌋ : ℤ) : ℚ) := by
  have := Int.floor_le h
  linarith

lemma fract_lt_one_q (h : ℚ) : h - ((⌊h⌋ : ℤ) : ℚ) < 1 := by
  have := Int.lt_floor_add_one h
  linarith

/-- Either the interpolation uses two in-range order statistics, or the
position is exactly the last index and the fractional part vanishes. -/
lemma interp_index_cases {n : ℕ} (hn : 1 ≤ n) {h : ℚ} (h0 : 0 ≤ h)
    (htop : h ≤ (n : ℚ) - 1) :
    ⌊h⌋.toNat + 1 < n ∨ (⌊h⌋.toNat = n - 1 ∧ h - ((⌊h⌋ : ℤ) : ℚ) = 0) := by
  by_cases hlt : ⌊h⌋.toNat + 1 < n
  · exact Or.inl hlt
  · right
    have hin : ((⌊h⌋.toNat : ℚ)) ≤ (n : ℚ) - 1 := le_trans (floor_toNat_le h0) htop
    have hin2 : ⌊h⌋.toNat < n := by
      have hq : ((⌊h⌋.toNat : ℚ)) < (n : ℚ) := by linarith
      exact_mod_cast hq
    have hieq : ⌊h⌋.toNat = n - 1 := by omega
    refine ⟨hieq, ?_⟩
    have hcast : ((⌊h⌋.toNat : ℚ)) = (n : ℚ) - 1 := by
      rw [hieq]
      push_cast [Nat.cast_sub hn]
      ring
    have hhi : h = ((⌊h⌋.toNat : ℚ)) :=
      le_antisymm (by rw [hcast]; exact htop) (floor_toNat_le h0)
    rw [← floor_toNat_cast h0, ← hhi, sub_self]

lemma sorted_getD_mono {s : List K} (hs : s.Sorted (· ≤ ·)) {i j : ℕ}
    (hij : i ≤ j) (hj : j < s.length) : s.getD i 0 ≤ s.getD j 0 := by
  rcases eq_or_lt_of_le hij with rfl | hlt
  · exact le_refl _
  · have hi : i < s.length := lt_trans hlt hj
    rw [List.getD_eq_getElem s 0 hi, List.getD_eq_getElem s 0 hj]
    have hrel := hs.rel_get_of_lt (a := ⟨i, hi⟩) (b := ⟨j, hj⟩) hlt
    simpa using hrel

lemma getD_eq_of_all {s : List K} {c : K} (h : ∀ x ∈ s, x = c) {i : ℕ}
    (hi : i < s.length) : s.getD i 0 = c := by
  rw [List.getD_eq_getElem s 0 hi]
  exact h _ (List.getElem_mem hi)

lemma interp_ge_left {s : List K} (hs : s.Sorted (· ≤ ·)) (hn : 1 ≤ s.length)
    {h : ℚ} (h0 : 0 ≤ h) (htop : h ≤ (s.length : ℚ) - 1) :
    s.getD (⌊h⌋.toNat) 0 ≤ Np.interp s h := by
  rw [Np.interp]
  rcases interp_index_cases hn h0 htop with hcase | ⟨hie, hfr⟩
  · have hgetle : s.getD (⌊h⌋.toNat) 0 ≤ s.getD (⌊h⌋.toNat + 1) 0 :=
      sorted_getD_mono hs (Nat.le_succ _) hcase
    have hK : (0 : K) ≤ ((h - ((⌊h⌋ : ℤ) : ℚ) : ℚ) : K) := by
      exact_mod_cast fract_nonneg_q h
    nlinarith
  · rw [hfr]
    simp

lemma interp_le_right {s : List K} (hs : s.Sorted (· ≤ ·)) (hn : 1 ≤ s.length)
    {h : ℚ} (h0 : 0 ≤ h) (htop : h ≤ (s.length : ℚ) - 1) :
    Np.interp s h ≤ s.getD (min (⌊h⌋.toNat + 1) (s.length - 1)) 0 := by
  rw [Np.interp]
  rcases interp_index_cases hn h0 htop with hcase | ⟨hie, hfr⟩
  · have hmin : min (⌊h⌋.toNat + 1) (s.length - 1) = ⌊h⌋.toNat + 1 := by omega
    rw [hmin]
    have hgetle : s.getD (⌊h⌋.toNat) 0 ≤ s.getD (⌊h⌋.toNat + 1) 0 :=
      sorted_getD_mono hs (Nat.le_succ _) hcase
    have hK0 : (0 : K) ≤ ((h - ((⌊h⌋ : ℤ) : ℚ) : ℚ) : K) := by
      exact_mod_cast fract_nonneg_q h
    have hK1 : ((h - ((⌊h⌋ : ℤ) : ℚ) : ℚ) : K) ≤ 1 := by
      exact_mod_cast le_of_lt (fract_lt_one_q h)
    nlinarith
  · have hmin : min (⌊h⌋.toNat + 1) (s.length - 1) = ⌊h⌋.toNat := by omega
    rw [hfr, hmin]
    simp

lemma interp_mono {s : List K} (hs : s.Sorted (· ≤ ·)) (hn : 1 ≤ s.length)
    {h1 h2 : ℚ} (h10 : 0 ≤ h1) (h12 : h1 ≤ h2) (htop : h2 ≤ (s.length : ℚ) - 1) :
    Np.interp s h1 ≤ Np.interp s h2 := by
  have h20 : 0 ≤ h2 := le_trans h10 h12
  have h1top : h1 ≤ (s.length : ℚ) - 1 := le_trans h12 htop
  have hflz : (0 : ℤ) ≤ ⌊h1⌋ := Int.floor_nonneg.mpr h10
  have hfl : ⌊h1⌋ ≤ ⌊h2⌋ := Int.floor_mono h12
  rcases Nat.lt_or_ge (⌊h1⌋.toNat) (⌊h2⌋.toNat) with hlt | hge
  · have hi2n : ⌊h2⌋.toNat < s.length := by
      have hq1 : ((⌊h2⌋.toNat : ℚ)) ≤ (s.length : ℚ) - 1 := le_trans (floor_toNat_le h20) htop
      have hq : ((⌊h2⌋.toNat : ℚ)) < (s.length : ℚ) := by linarith
      exact_mod_cast hq
    calc Np.interp s h1 ≤ s.getD (min (⌊h1⌋.toNat + 1) (s.length - 1)) 0 :=
          interp_le_right hs hn h10 h1top
      _ ≤ s.getD (⌊h2⌋.toNat) 0 := sorted_getD_mono hs (by omega) hi2n
      _ ≤ Np.interp s h2 := interp_ge_left hs hn h20 htop
  · have hfleq : ⌊h1⌋ = ⌊h2⌋ := by omega
    rw [Np.interp, Np.interp, hfleq]
    rcases interp_index_cases hn h20 htop with hcase | ⟨hie, hfr⟩
    · have hgetle : s.getD (⌊h2⌋.toNat) 0 ≤ s.getD (⌊h2⌋.toNat + 1) 0 :=
        sorted_getD_mono hs (Nat.le_succ _) hcase
      have hg : ((h1 - ((⌊h2⌋ : ℤ) : ℚ) : ℚ) : K) ≤ ((h2 - ((⌊h2⌋ : ℤ) : ℚ) : ℚ) : K) := by
        have : h1 - ((⌊h2⌋ : ℤ) : ℚ) ≤ h2 - ((⌊h2⌋ : ℤ) : ℚ) := by linarith
        exact_mod_cast this
      nlinarith
    · have hh2 : h2 = ((⌊h2⌋ : ℤ) : ℚ) := by linarith [fract_nonneg_q h2]
      have hfl1 : ((⌊h2⌋ : ℤ) : ℚ) ≤ h1 := by
        have := Int.floor_le h1
        rw [hfleq] at this
        exact this
      have hh1 : h1 = h2 := le_antisymm h12 (by rw [hh2]; exact hfl1)
      rw [hh1]

lemma interp_const {s : List K} {c : K} (hall : ∀ x ∈ s, x = c) (hn : 1 ≤ s.length)
    {h : ℚ} (h0 : 0 ≤ h) (htop : h ≤ (s.length : ℚ) - 1) :
    Np.interp s h = c := by
  rw [Np.interp]
  rcases interp_index_cases hn h0 htop with hcase | ⟨hie, hfr⟩
  · rw [getD_eq_of_all hall (by omega), getD_eq_of_all hall hcase]
    ring
  · rw [hfr, getD_eq_of_all hall (by omega)]
    simp

lemma percentile_mono {l : List K} (hne : 1 ≤ l.length) {q1 q2 : ℚ}
    (hq0 : 0 ≤ q1) (hq12 : q1 ≤ q2) (hq2 : q2 ≤ 100) :
    Np.percentile q1 l ≤ Np.percentile q2 l := by
  rw [Np.percentile, Np.percentile]
  have hs : (l.insertionSort (· ≤ ·)).Sorted (· ≤ ·) := List.sorted_insertionSort _ l
  have hlen : (l.insertionSort (· ≤ ·)).length = l.length := List.length_insertionSort _ l
  have hn1 : (1 : ℚ) ≤ (l.length : ℚ) := by exact_mod_cast hne
  have hnn : (0 : ℚ) ≤ (l.length : ℚ) - 1 := by linarith
  apply interp_mono hs (by omega)
  · exact div_nonneg (mul_nonneg hnn hq0) (by norm_num)
  · have hmul : ((l.length : ℚ) - 1) * q1 ≤ ((l.length : ℚ) - 1) * q2 :=
      mul_le_mul_of_nonneg_left hq12 hnn
    linarith
  · rw [hlen]
    have hmul : ((l.length : ℚ) - 1) * q2 ≤ ((l.length : ℚ) - 1) * 100 :=
      mul_le_mul_of_nonneg_left hq2 hnn
    linarith

lemma percentile_const {l : List K} {c : K} (hne : 1 ≤ l.length)
    (hall : ∀ x ∈ l, x = c) {q : ℚ} (hq0 : 0 ≤ q) (hq : q ≤ 100) :
    Np.percentile q l = c := by
  rw [Np.percentile]
  have hsall : ∀ x ∈ l.insertionSort (· ≤ ·), x = c := fun x hx =>
    hall x ((List.mem_insertionSort _).mp hx)
  have hlen : (l.insertionSort (· ≤ ·)).length = l.length := List.length_insertionSort _ l
  have hn1 : (1 : ℚ) ≤ (l.length : ℚ) := by exact_mod_cast hne
  have hnn : (0 : ℚ) ≤ (l.length : ℚ) - 1 := by linarith
  apply interp_const hsall (by omega)
  · exact div_nonneg (mul_nonneg hnn hq0) (by norm_num)
  · rw [hlen]
    have hmul : ((l.length : ℚ) - 1) * q ≤ ((l.length : ℚ) - 1) * 100 :=
      mul_le_mul_of_nonneg_left hq hnn
    linarith

end PercentileLemmas

section ZeroVolatilityLemmas

lemma mc_monthly_volatility_zero {p : SimParams} (hv : p.annual_volatility = 0) :
    MC.monthly_volatility p = 0 := by
  rw [MC.monthly_volatility, MC.annual_volatility, hv]
  simp

lemma app_monthly_volatility_zero {p : SimParams} (hv : p.annual_volatility = 0) :
    App.monthly_volatility p = 0 := by
  rw [App.monthly_volatility, App.annual_volatility, hv]
  simp

lemma mc_sample_const {p : SimParams} (hv : p.annual_volatility = 0)
    (z : ℕ → ℕ → ℝ) (month j : ℕ) : MC.sample p z month j = MC.monthly_return p := by
  rw [MC.sample, mc_monthly_volatility_zero hv]
  ring

lemma app_sample_const {p : SimParams} (hv : p.annual_volatility = 0)
    (z : ℕ → ℕ → ℝ) (month j : ℕ) : App.sample p z month j = App.monthly_return p := by
  rw [App.sample, app_monthly_volatility_zero hv]
  ring

lemma mc_balance_col_eq {p : SimParams} (hv : p.annual_volatility = 0)
    (z : ℕ → ℕ → ℝ) : ∀ m j k, MC.balance p z m j = MC.balance p z m k := by
  intro m
  induction m with
  | zero => intro j k; rfl
  | succ m ih =>
    intro j k
    simp only [MC.balance]
    rw [mc_sample_const hv z, mc_sample_const hv z, ih j k]

lemma app_balance_col_eq {p : SimParams} (hv : p.annual_volatility = 0)
    (z : ℕ → ℕ → ℝ) : ∀ m j k, App.balance p z m j = App.balance p z m k := by
  intro m
  induction m with
  | zero => intro j k; rfl
  | succ m ih =>
    intro j k
    simp only [App.balance]
    rw [app_sample_const hv z, app_sample_const hv z, ih j k]

lemma mc_final_values_length (p : SimParams) (z : ℕ → ℕ → ℝ) :
    (MC.final_values p z).length = p.n_simulations := by
  simp [MC.final_values]

lemma app_final_values_length (p : SimParams) (z : ℕ → ℕ → ℝ) :
    (App.final_values p z).length = p.n_simulations := by
  simp [App.final_values]

lemma mc_final_values_all_eq {p : SimParams} (hv : p.annual_volatility = 0)
    (z : ℕ → ℕ → ℝ) :
    ∀ x ∈ MC.final_values p z, x = MC.balance p z (MC.months p) 0 := by
  intro x hx
  rw [MC.final_values] at hx
  simp only [List.mem_map, List.mem_range] at hx
  obtain ⟨j, _, rfl⟩ := hx
  exact mc_balance_col_eq hv z (MC.months p) j 0

lemma app_final_values_all_eq {p : SimParams} (hv : p.annual_volatility = 0)
    (z : ℕ → ℕ → ℝ) :
    ∀ x ∈ App.final_values p z, x = App.balance p z (App.months p) 0 := by
  intro x hx
  rw [App.final_values] at hx
  simp only [List.mem_map, List.mem_range] at hx
  obtain ⟨j, _, rfl⟩ := hx
  exact app_balance_col_eq hv z (App.months p) j 0

end ZeroVolatilityLemmas

section ScaleSignLemmas

end ScaleSignLemmas

section TrajectoryLemmas

lemma mc_results_getD_last (p : SimParams) (z : ℕ → ℕ → ℝ) :
    (MC.results p z).getD (MC.months p) [] = MC.final_values p z := by
  rw [MC.results, MC.final_values]
  rw [List.getD_eq_getElem _ [] (by simp)]
  simp

lemma app_results_getD_last (p : SimParams) (z : ℕ → ℕ → ℝ) :
    (App.results p z).getD (App.months p) [] = App.final_values p z := by
  rw [App.results, App.final_values]
  rw [List.getD_eq_getElem _ [] (by simp)]
  simp

end TrajectoryLemmas

/-- C1: the two simulator implementations disagree on contribution timing.
The step of src/app.py adds monthly_contribution unconditionally after every
growth step, the step of src/monte_carlo.py adds it only when month % 12 is
nonzero (so it skips months 12, 24, ..., and the final month years*12 is always
such a skipped month).  On the concrete parameter set divergenceParams
(monthly_contribution = 1, years = 1) with all monthly draws equal to zero the
monte_carlo final balance is 11 while the app final balance is 12, so the two
runs produce different final-value samples and different trajectory matrices. -/
theorem contribution_timing_divergence :
    (∀ (p : SimParams) (z : ℕ → ℕ → ℝ) (month j : ℕ),
      App.balance p z (month + 1) j =
        App.balance p z month j * (1 + App.sample p z (month + 1) j) +
          p.monthly_contribution)
    ∧ (∀ (p : SimParams) (z : ℕ → ℕ → ℝ) (month j : ℕ),
      MC.balance p z (month + 1) j =
        if (month + 1) % 12 ≠ 0 then
          MC.balance p z month j * (1 + MC.sample p z (month + 1) j) +
            p.monthly_contribution
        else MC.balance p z month j * (1 + MC.sample p z (month + 1) j))
    ∧ (∀ p : SimParams, MC.months p % 12 = 0)
    ∧ MC.balance divergenceParams zZero (MC.months divergenceParams) 0 = 11
    ∧ App.balance divergenceParams zZero (App.months divergenceParams) 0 = 12
    ∧ MC.final_values divergenceParams zZero ≠ App.final_values divergenceParams zZero
    ∧ MC.results divergenceParams zZero ≠ App.results divergenceParams zZero := by
  have hmc : MC.balance divergenceParams zZero (MC.months divergenceParams) 0 = 11 := by
    norm_num [MC.months, divergenceParams]
    norm_num [MC.balance, MC.sample, MC.monthly_return, MC.monthly_volatility,
      MC.annual_return, MC.annual_volatility, divergenceParams, zZero, Real.one_rpow]
  have happ : App.balance divergenceParams zZero (App.months divergenceParams) 0 = 12 := by
    norm_num [App.months, divergenceParams]
    norm_num [App.balance, App.sample, App.monthly_return, App.monthly_volatility,
      App.annual_return, App.annual_volatility, divergenceParams, zZero, Real.one_rpow]
  have hfin : MC.final_values divergenceParams zZero ≠
      App.final_values divergenceParams zZero := by
    intro hEq
    have h0 := congrArg (fun L => L.getD 0 0) hEq
    simp only [MC.final_values, App.final_values, divergenceParams] at h0
    norm_num [List.range_succ_eq_map] at h0
    rw [show MC.final_values divergenceParams zZero =
        [MC.balance divergenceParams zZero (MC.months divergenceParams) 0] by
          simp [MC.final_values, divergenceParams, MC.months, List.range_succ_eq_map],
      show App.final_values divergenceParams zZero =
        [App.balance divergenceParams zZero (App.months divergenceParams) 0] by
          simp [App.final_values, divergenceParams, App.months, List.range_succ_eq_map]]
      at hEq
    rw [hmc, happ] at hEq
    norm_num at hEq
  refine ⟨?_, ?_, ?_, hmc, happ, hfin, ?_⟩
  · intro p z month j
    rw [App.balance]
  · intro p z month j
    rw [MC.balance]
  · intro p
    simp [MC.months]
  · intro hEq
    apply hfin
    have hmonths : MC.months divergenceParams = App.months divergenceParams := rfl
    rw [← mc_results_getD_last, ← app_results_getD_last, ← hmonths, hEq]

/-- C3: for every parameter set and every draw family, the trajectory matrix
of each run_simulation has exactly years*12 + 1 rows, every row has exactly
n_simulations entries, and row 0 is current_savings in every column. -/
theorem trajectory_shape (p : SimParams) (z : ℕ → ℕ → ℝ) :
    (MC.results p z).length = p.years * 12 + 1
    ∧ (MC.results p z).map List.length =
        List.replicate (p.years * 12 + 1) p.n_simulations
    ∧ (MC.results p z).getD 0 [] =
        List.replicate p.n_simulations p.current_savings
    ∧ (App.results p z).length = p.years * 12 + 1
    ∧ (App.results p z).map List.length =
        List.replicate (p.years * 12 + 1) p.n_simulations
    ∧ (App.results p z).getD 0 [] =
        List.replicate p.n_simulations p.current_savings := by
  refine ⟨?_, ?_, ?_, ?_, ?_, ?_⟩
  · simp [MC.results, MC.months]
  · simp [MC.results, MC.months, List.map_map, Function.comp_def]
  · rw [MC.results, List.range_succ_eq_map]
    simp only [List.map_cons, List.getD_cons_zero]
    have hb : ∀ j : ℕ, MC.balance p z 0 j = p.current_savings := fun _ => rfl
    simp [hb]
  · simp [App.results, App.months]
  · simp [App.results, App.months, List.map_map, Function.comp_def]
  · rw [App.results, List.range_succ_eq_map]
    simp only [List.map_cons, List.getD_cons_zero]
    have hb : ∀ j : ℕ, App.balance p z 0 j = p.current_savings := fun _ => rfl
    simp [hb]

/-- C4: for every final-balance sample of length at least 1, the reported
success probability equals 100 times the count of final balances greater than
or equal to the goal, divided by the sample length; the comparison is
inclusive, so a sample in which every value equals the goal exactly yields
success probability 100. -/
theorem success_probability_spec {K : Type} [LinearOrderedField K]
    (goal : K) (finals : List K) (h : 1 ≤ finals.length) :
    Agg.success_probability goal finals =
      100 * ((finals.countP fun b => decide (goal ≤ b)) : K) / (finals.length : K)
    ∧ ((∀ b ∈ finals, b = goal) → Agg.success_probability goal finals = 100) := by
  have hn : ((finals.length : K)) ≠ 0 := Nat.cast_ne_zero.mpr (by omega)
  constructor
  · rw [Agg.success_probability]
    ring
  · intro hall
    have hcount : (finals.countP fun b => decide (goal ≤ b)) = finals.length :=
      List.countP_eq_length.mpr fun b hb => by rw [hall b hb]; simp
    rw [Agg.success_probability, hcount, div_self hn, one_mul]

/-- Witness for success_probability_spec on the rational sample [5, 5] with
goal 5. -/
theorem success_probability_spec_witness :
    1 ≤ ([(5 : ℚ), 5]).length
    ∧ (Agg.success_probability (5 : ℚ) [5, 5] =
        100 * ((([(5 : ℚ), 5]).countP fun b => decide ((5 : ℚ) ≤ b)) : ℚ) /
          (([(5 : ℚ), 5]).length : ℚ)
      ∧ ((∀ b ∈ [(5 : ℚ), 5], b = 5) → Agg.success_probability (5 : ℚ) [5, 5] = 100)) :=
  ⟨by decide, success_probability_spec 5 [5, 5] (by decide)⟩

/-- C5: both implementations convert the percentage inputs to decimals by one
division by 100 and then use geometric de-annualization for the drift and
square-root-of-time scaling for the noise: the location parameter passed to
the normal sampler is (1 + annual_return/100)^(1/12) - 1 and its scale
parameter is (annual_volatility/100)/sqrt(12); every draw differs from the
location by scale times the standard normal variate.  The location is not
annual_return/1200: on geometricParams (annual_return = 1200) the two differ. -/
theorem monthly_moments_spec (p : SimParams) :
    MC.monthly_return p = (1 + p.annual_return / 100) ^ ((1 : ℝ) / 12) - 1
    ∧ MC.monthly_volatility p = (p.annual_volatility / 100) / Real.sqrt 12
    ∧ App.monthly_return p = (1 + p.annual_return / 100) ^ ((1 : ℝ) / 12) - 1
    ∧ App.monthly_volatility p = (p.annual_volatility / 100) / Real.sqrt 12
    ∧ (∀ (z : ℕ → ℕ → ℝ) (month j : ℕ),
        MC.sample p z month j - MC.monthly_return p =
          MC.monthly_volatility p * z month j)
    ∧ (∀ (z : ℕ → ℕ → ℝ) (month j : ℕ),
        App.sample p z month j - App.monthly_return p =
          App.monthly_volatility p * z month j)
    ∧ MC.monthly_return geometricParams ≠ geometricParams.annual_return / 1200 := by
  refine ⟨rfl, rfl, rfl, rfl, ?_, ?_, ?_⟩
  · intro z month j
    rw [MC.sample]
    ring
  · intro z month j
    rw [App.sample]
    ring
  · intro hEq
    simp only [MC.monthly_return, MC.annual_return, geometricParams] at hEq
    have h13 : (1 + (1200 : ℝ) / 100) = 13 := by norm_num
    rw [h13] at hEq
    have h1 : (1200 : ℝ) / 1200 = 1 := by norm_num
    rw [h1] at hEq
    have h2 : ((13 : ℝ)) ^ ((1 : ℝ) / 12) = 2 := by linarith
    have h12 : (((13 : ℝ)) ^ ((1 : ℝ) / 12)) ^ (12 : ℕ) = 13 := by
      rw [← Real.rpow_natCast (((13 : ℝ)) ^ ((1 : ℝ) / 12)) 12,
        ← Real.rpow_mul (by norm_num : (0 : ℝ) ≤ 13)]
      norm_num
    rw [h2] at h12
    norm_num at h12

/-- C6: in both implementations the inflation-adjusted target is
goal_amount * (1 + inflation_rate/100)^years with inflation_rate the
percentage-form input, and it is nonnegative whenever goal_amount and
inflation_rate are. -/
theorem future_goal_spec (p : SimParams)
    (hg : 0 ≤ p.goal_amount) (hi : 0 ≤ p.inflation_rate) :
    MC.future_goal p = p.goal_amount * (1 + p.inflation_rate / 100) ^ p.years
    ∧ App.future_goal p = p.goal_amount * (1 + p.inflation_rate / 100) ^ p.years
    ∧ 0 ≤ MC.future_goal p
    ∧ 0 ≤ App.future_goal p := by
  have hdiv : (0 : ℝ) ≤ p.inflation_rate / 100 := div_nonneg hi (by norm_num)
  have hbase : (0 : ℝ) ≤ 1 + p.inflation_rate / 100 := by linarith
  have hpow : (0 : ℝ) ≤ (1 + p.inflation_rate / 100) ^ p.years := pow_nonneg hbase _
  exact ⟨rfl, rfl, mul_nonneg hg hpow, mul_nonneg hg hpow⟩

/-- Witness for future_goal_spec at zeroGoalParams. -/
theorem future_goal_spec_witness :
    0 ≤ zeroGoalParams.goal_amount
    ∧ 0 ≤ zeroGoalParams.inflation_rate
    ∧ (MC.future_goal zeroGoalParams =
        zeroGoalParams.goal_amount *
          (1 + zeroGoalParams.inflation_rate / 100) ^ zeroGoalParams.years
      ∧ App.future_goal zeroGoalParams =
        zeroGoalParams.goal_amount *
          (1 + zeroGoalParams.inflation_rate / 100) ^ zeroGoalParams.years
      ∧ 0 ≤ MC.future_goal zeroGoalParams
      ∧ 0 ≤ App.future_goal zeroGoalParams) :=
  ⟨le_refl 0, le_refl 0, future_goal_spec zeroGoalParams (le_refl 0) (le_refl 0)⟩

/-- C7: for every final-balance sample of length at least 1, the shortfall
probability is 100 minus the success probability; the average shortfall is the
mean of goal - b over exactly the sample values b below the goal, and 0 when
no value falls short; on a sample entirely below the goal the success
probability is 0 and the average shortfall is goal minus the sample mean. -/
theorem shortfall_metrics_spec {K : Type} [LinearOrderedField K]
    (goal : K) (finals : List K) (h : 1 ≤ finals.length) :
    Agg.shortfall_probability goal finals = 100 - Agg.success_probability goal finals
    ∧ ((finals.filter fun b => decide (b < goal)) ≠ [] →
        Agg.avg_shortfall goal finals =
          Np.mean ((finals.filter fun b => decide (b < goal)).map fun b => goal - b))
    ∧ ((finals.filter fun b => decide (b < goal)) = [] →
        Agg.avg_shortfall goal finals = 0)
    ∧ ((∀ b ∈ finals, b < goal) →
        Agg.success_probability goal finals = 0
        ∧ Agg.avg_shortfall goal finals = goal - Np.mean finals) := by
  have hn : ((finals.length : K)) ≠ 0 := Nat.cast_ne_zero.mpr (by omega)
  refine ⟨rfl, ?_, ?_, ?_⟩
  · intro hfne
    have hlen : 0 < ((finals.filter fun b => decide (b < goal)).map fun b => goal - b).length := by
      rw [List.length_map]
      exact List.length_pos.mpr hfne
    simp only [Agg.avg_shortfall]
    rw [if_pos hlen]
  · intro hfe
    simp only [Agg.avg_shortfall, hfe]
    simp
  · intro hbelow
    constructor
    · have hcount : (finals.countP fun b => decide (goal ≤ b)) = 0 :=
        List.countP_eq_zero.mpr fun b hb => by
          simpa using not_le.mpr (hbelow b hb)
      rw [Agg.success_probability, hcount]
      simp
    · have hfilter : (finals.filter fun b => decide (b < goal)) = finals :=
        List.filter_eq_self.mpr fun b hb => by simpa using hbelow b hb
      have hlen : 0 < ((finals.map fun b => goal - b)).length := by
        rw [List.length_map]
        omega
      simp only [Agg.avg_shortfall, hfilter]
      rw [if_pos hlen, Np.mean, sum_map_sub_const, List.length_map, sub_div,
        mul_div_cancel_left₀ _ hn, Np.mean]

/-- Witness for shortfall_metrics_spec on the rational sample [0] with goal 1,
entirely below the goal. -/
theorem shortfall_metrics_spec_witness :
    1 ≤ ([(0 : ℚ)]).length
    ∧ (∀ b ∈ [(0 : ℚ)], b < 1)
    ∧ (Agg.success_probability (1 : ℚ) [0] = 0
      ∧ Agg.avg_shortfall (1 : ℚ) [0] = 1 - Np.mean [0]) :=
  ⟨by decide, by simp, (shortfall_metrics_spec 1 [0] (by decide)).2.2.2 (by simp)⟩

/-- C8: for every non-empty final-balance sample the five reported percentile
values, computed by sorting and linear interpolation between order statistics,
are monotonically non-decreasing: 5th <= 25th <= 50th <= 75th <= 95th. -/
theorem percentile_output_monotone {K : Type} [LinearOrderedField K]
    (finals : List K) (h : finals ≠ []) :
    Np.percentile 5 finals ≤ Np.percentile 25 finals
    ∧ Np.percentile 25 finals ≤ Np.percentile 50 finals
    ∧ Np.percentile 50 finals ≤ Np.percentile 75 finals
    ∧ Np.percentile 75 finals ≤ Np.percentile 95 finals := by
  have hlen : 1 ≤ finals.length := List.length_pos.mpr h
  exact ⟨percentile_mono hlen (by norm_num) (by norm_num) (by norm_num),
    percentile_mono hlen (by norm_num) (by norm_num) (by norm_num),
    percentile_mono hlen (by norm_num) (by norm_num) (by norm_num),
    percentile_mono hlen (by norm_num) (by norm_num) (by norm_num)⟩

/-- Witness for percentile_output_monotone on the rational sample [0]. -/
theorem percentile_output_monotone_witness :
    ([(0 : ℚ)]) ≠ ([] : List ℚ)
    ∧ (Np.percentile 5 [(0 : ℚ)] ≤ Np.percentile 25 [(0 : ℚ)]
      ∧ Np.percentile 25 [(0 : ℚ)] ≤ Np.percentile 50 [(0 : ℚ)]
      ∧ Np.percentile 50 [(0 : ℚ)] ≤ Np.percentile 75 [(0 : ℚ)]
      ∧ Np.percentile 75 [(0 : ℚ)] ≤ Np.percentile 95 [(0 : ℚ)]) :=
  ⟨List.cons_ne_nil 0 [], percentile_output_monotone [0] (List.cons_ne_nil 0 [])⟩

/-- C10: for every final-balance sample of length at least 1, the success
probability lies in [0, 100], and the shortfall probability, which equals
100 minus the success probability, lies in [0, 100] as well. -/
theorem success_probability_bounds {K : Type} [LinearOrderedField K]
    (goal : K) (finals : List K) (h : 1 ≤ finals.length) :
    0 ≤ Agg.success_probability goal finals
    ∧ Agg.success_probability goal finals ≤ 100
    ∧ Agg.shortfall_probability goal finals =
        100 - Agg.success_probability goal finals
    ∧ 0 ≤ Agg.shortfall_probability goal finals
    ∧ Agg.shortfall_probability goal finals ≤ 100 := by
  have hpos : (0 : K) < (finals.length : K) := by
    exact_mod_cast (by omega : 0 < finals.length)
  have hcle : ((finals.countP fun b => decide (goal ≤ b)) : K) ≤ (finals.length : K) := by
    exact_mod_cast List.countP_le_length _
  have hsp0 : 0 ≤ Agg.success_probability goal finals := by
    rw [Agg.success_probability]
    positivity
  have hsp100 : Agg.success_probability goal finals ≤ 100 := by
    rw [Agg.success_probability]
    have hdiv : ((finals.countP fun b => decide (goal ≤ b)) : K) / (finals.length : K) ≤ 1 :=
      (div_le_one hpos).mpr hcle
    nlinarith
  refine ⟨hsp0, hsp100, rfl, ?_, ?_⟩ <;> rw [Agg.shortfall_probability] <;> linarith

/-- Witness for success_probability_bounds on the rational sample [0] with
goal 0. -/
theorem success_probability_bounds_witness :
    1 ≤ ([(0 : ℚ)]).length
    ∧ (0 ≤ Agg.success_probability (0 : ℚ) [0]
      ∧ Agg.success_probability (0 : ℚ) [0] ≤ 100
      ∧ Agg.shortfall_probability (0 : ℚ) [0] =
          100 - Agg.success_probability (0 : ℚ) [0]
      ∧ 0 ≤ Agg.shortfall_probability (0 : ℚ) [0]
      ∧ Agg.shortfall_probability (0 : ℚ) [0] ≤ 100) :=
  ⟨by decide, success_probability_bounds 0 [0] (by decide)⟩

/-- C9: when annual_volatility = 0, every monthly draw equals the monthly
return exactly, so in both implementations all simulation columns of the
trajectory are identical at every month; consequently the summary satisfies
min_value = max_value = median_final_value and std_final_value = 0. -/
theorem zero_volatility_deterministic (p : SimParams) (z : ℕ → ℕ → ℝ)
    (hv : p.annual_volatility = 0) (hn : 1 ≤ p.n_simulations) :
    (∀ month j, MC.sample p z month j = MC.monthly_return p)
    ∧ (∀ month j k, MC.balance p z month j = MC.balance p z month k)
    ∧ (MC.summaryOf p z).min_value = (MC.summaryOf p z).max_value
    ∧ (MC.summaryOf p z).max_value = (MC.summaryOf p z).median_final_value
    ∧ (MC.summaryOf p z).std_final_value = 0
    ∧ (∀ month j, App.sample p z month j = App.monthly_return p)
    ∧ (∀ month j k, App.balance p z month j = App.balance p z month k)
    ∧ (App.summaryOf p z).min_value = (App.summaryOf p z).max_value
    ∧ (App.summaryOf p z).max_value = (App.summaryOf p z).median_final_value
    ∧ (App.summaryOf p z).std_final_value = 0 := by
  have hmlen : 1 ≤ (MC.final_values p z).length := by
    rw [mc_final_values_length]
    omega
  have halen : 1 ≤ (App.final_values p z).length := by
    rw [app_final_values_length]
    omega
  have hmall := mc_final_values_all_eq hv z
  have haall := app_final_values_all_eq hv z
  have em1 : (MC.summaryOf p z).min_value = Np.amin (MC.final_values p z) := rfl
  have em2 : (MC.summaryOf p z).max_value = Np.amax (MC.final_values p z) := rfl
  have em3 : (MC.summaryOf p z).median_final_value =
      Np.percentile 50 (MC.final_values p z) := rfl
  have em4 : (MC.summaryOf p z).std_final_value = Np.std (MC.final_values p z) := rfl
  have ea1 : (App.summaryOf p z).min_value = Np.amin (App.final_values p z) := rfl
  have ea2 : (App.summaryOf p z).max_value = Np.amax (App.final_values p z) := rfl
  have ea3 : (App.summaryOf p z).median_final_value =
      Np.percentile 50 (App.final_values p z) := rfl
  have ea4 : (App.summaryOf p z).std_final_value = Np.std (App.final_values p z) := rfl
  refine ⟨mc_sample_const hv z, mc_balance_col_eq hv z, ?_, ?_, ?_,
    app_sample_const hv z, app_balance_col_eq hv z, ?_, ?_, ?_⟩
  · rw [em1, em2, amin_const hmlen hmall, amax_const hmlen hmall]
  · rw [em2, em3, amax_const hmlen hmall,
      percentile_const hmlen hmall (by norm_num) (by norm_num)]
  · rw [em4]
    exact std_const hmlen hmall
  · rw [ea1, ea2, amin_const halen haall, amax_const halen haall]
  · rw [ea2, ea3, amax_const halen haall,
      percentile_const halen haall (by norm_num) (by norm_num)]
  · rw [ea4]
    exact std_const halen haall

/-- Witness for zero_volatility_deterministic at zeroVolParams with the
all-zero draw family. -/
theorem zero_volatility_deterministic_witness :
    zeroVolParams.annual_volatility = 0
    ∧ 1 ≤ zeroVolParams.n_simulations
    ∧ ((∀ month j, MC.sample zeroVolParams zZero month j = MC.monthly_return zeroVolParams)
      ∧ (∀ month j k,
          MC.balance zeroVolParams zZero month j = MC.balance zeroVolParams zZero month k)
      ∧ (MC.summaryOf zeroVolParams zZero).min_value =
          (MC.summaryOf zeroVolParams zZero).max_value
      ∧ (MC.summaryOf zeroVolParams zZero).max_value =
          (MC.summaryOf zeroVolParams zZero).median_final_value
      ∧ (MC.summaryOf zeroVolParams zZero).std_final_value = 0
      ∧ (∀ month j, App.sample zeroVolParams zZero month j = App.monthly_return zeroVolParams)
      ∧ (∀ month j k,
          App.balance zeroVolParams zZero month j = App.balance zeroVolParams zZero month k)
      ∧ (App.summaryOf zeroVolParams zZero).min_value =
          (App.summaryOf zeroVolParams zZero).max_value
      ∧ (App.summaryOf zeroVolParams zZero).max_value =
          (App.summaryOf zeroVolParams zZero).median_final_value
      ∧ (App.summaryOf zeroVolParams zZero).std_final_value = 0) :=
  ⟨rfl, by decide, zero_volatility_deterministic zeroVolParams zZero rfl (by decide)⟩

/-- Witness for contribution_timing_divergence: the two concrete final
balances differ, 11 against 12. -/
theorem contribution_timing_divergence_witness :
    MC.balance divergenceParams zZero (MC.months divergenceParams) 0 = 11
    ∧ App.balance divergenceParams zZero (App.months divergenceParams) 0 = 12 :=
  ⟨contribution_timing_divergence.2.2.2.1, contribution_timing_divergence.2.2.2.2.1⟩

/-- Witness for trajectory_shape at a concrete parameter set: 13 rows for one
year, and row 0 equal to the replicated current savings. -/
theorem trajectory_shape_witness :
    (MC.results oneSimParams zZero).length = oneSimParams.years * 12 + 1
    ∧ (MC.results oneSimParams zZero).getD 0 [] =
        List.replicate oneSimParams.n_simulations oneSimParams.current_savings
    ∧ (App.results oneSimParams zZero).length = oneSimParams.years * 12 + 1 :=
  ⟨(trajectory_shape oneSimParams zZero).1, (trajectory_shape oneSimParams zZero).2.2.1,
    (trajectory_shape oneSimParams zZero).2.2.2.1⟩

/-- Witness for monthly_moments_spec: at annual_return = 1200 percent the
geometric monthly return differs from the naive annual_return/1200. -/
theorem monthly_moments_spec_witness :
    MC.monthly_return geometricParams ≠ geometricParams.annual_return / 1200 :=
  (monthly_moments_spec geometricParams).2.2.2.2.2.2
